import Mathlib

/-
  Verification development for the NPIC microreactor load-following control
  repository (python_version: reactor.py, controller.py, run.py).

  The Python floating-point scalars are modelled as real numbers; machine
  rounding is outside the scope of the claims treated here.
-/

set_option maxHeartbeats 1000000

noncomputable section

namespace NPIC

/-! ## Drum configuration table (reactor.get_drum_params) -/

/-- Embedding of reactor.get_drum_params: returns
(Rho_d0, Reactivity_per_degree, u0, W) for a drum count. -/
def get_drum_params (num_drums : ℤ) : ℝ × ℝ × ℝ × ℝ :=
  if num_drums = 8 then
    (-0.033085599, 26.11e-5, 77.56, 0.06)
  else if num_drums = 4 then
    (-0.033085599 + 0.013980296, 16.11e-5, 108.5, 0.1)
  else if num_drums = 2 then
    (-0.033085599 + 0.0074, 7.33e-5, 165.5, 0.2)
  else if num_drums = 1 then
    (-0.033085599 + 0.0071 + 0.0082, 2.77e-5, 170, 0.49)
  else
    (-0.033085599, 26.11e-5, 77.56, 0.04)

/-! ## Physical constants of Reactor.reactor_dae (fixed literals in the source) -/

def Sig_x : ℝ := 2.65e-22

def yi : ℝ := 0.061

def yx : ℝ := 0.002

def lamda_x : ℝ := 2.09e-5

def lamda_I : ℝ := 2.87e-5

def Sum_f : ℝ := 0.3358

def l : ℝ := 1.68e-3

def beta : ℝ := 0.0048

def beta_1 : ℝ := 1.42481e-4

def beta_2 : ℝ := 9.24281e-4

def beta_3 : ℝ := 7.79956e-4

def beta_4 : ℝ := 2.06583e-3

def beta_5 : ℝ := 6.71175e-4

def beta_6 : ℝ := 2.17806e-4

def Lamda_1 : ℝ := 1.272e-2

def Lamda_2 : ℝ := 3.174e-2

def Lamda_3 : ℝ := 1.160e-1

def Lamda_4 : ℝ := 3.110e-1

def Lamda_5 : ℝ := 1.400e+0

def Lamda_6 : ℝ := 3.870e+0

def cp_f : ℝ := 977

def cp_m : ℝ := 1697

def cp_c : ℝ := 5188.6

def M_f : ℝ := 2002

def M_m : ℝ := 11573

def M_c : ℝ := 500

def mu_f : ℝ := M_f * cp_f

def mu_m : ℝ := M_m * cp_m

def mu_c : ℝ := M_c * cp_c

def f_f : ℝ := 0.96

def P_0 : ℝ := 22e6

def T_in : ℝ := 864

def T_out : ℝ := 1106

def Tc0 : ℝ := (T_in + T_out) / 2

def M_dot : ℝ := 1.75e+1

def alpha_f : ℝ := -2.875e-5

def alpha_m : ℝ := -3.696e-5

def alpha_c : ℝ := 0.0

/-! ## Reactor model (reactor.Reactor.reactor_dae) -/

/-- Reactor configuration parameters: the dictionary handed to Reactor.
Tf0 and Tm0 are optional keys read with params.get and defaults 1105 / 1087. -/
structure ReactorParams where
  Rho_d0 : ℝ
  Reactivity_per_degree : ℝ
  Xe0 : ℝ
  I0 : ℝ
  Pi : ℝ
  Tf0opt : Option ℝ
  Tm0opt : Option ℝ

/-- Embedding of Reactor.reactor_dae: given drum count, parameters, time,
12-component state and actuator position, return the state derivative and
the reactivity, or the ValueError raised for an unsupported drum count. -/
def reactor_dae (num_drums : ℤ) (p : ReactorParams) (t : ℝ) (x : Fin 12 → ℝ)
    (u : ℝ) : Except String ((Fin 12 → ℝ) × ℝ) :=
  let Tf0 : ℝ := p.Tf0opt.getD 1105
  let Tm0 : ℝ := p.Tm0opt.getD 1087
  let K_fm : ℝ := f_f * P_0 / (Tf0 - Tm0)
  let K_mc : ℝ := P_0 / (Tm0 - Tc0)
  let n_r := x 0
  let Cr1 := x 1
  let Cr2 := x 2
  let Cr3 := x 3
  let Cr4 := x 4
  let Cr5 := x 5
  let Cr6 := x 6
  let X := x 7
  let I := x 8
  let Tf := x 9
  let Tm := x 10
  let Tc := x 11
  let Rho_d1 := p.Rho_d0 + u * p.Reactivity_per_degree
  let mkOut : ℝ → (Fin 12 → ℝ) × ℝ := fun rho =>
    (![((rho - beta) / l) * n_r + (beta_1 / l) * Cr1 + (beta_2 / l) * Cr2 +
         (beta_3 / l) * Cr3 + (beta_4 / l) * Cr4 + (beta_5 / l) * Cr5 +
         (beta_6 / l) * Cr6,
       Lamda_1 * n_r - Lamda_1 * Cr1,
       Lamda_2 * n_r - Lamda_2 * Cr2,
       Lamda_3 * n_r - Lamda_3 * Cr3,
       Lamda_4 * n_r - Lamda_4 * Cr4,
       Lamda_5 * n_r - Lamda_5 * Cr5,
       Lamda_6 * n_r - Lamda_6 * Cr6,
       0.002 * Sum_f * p.Pi + lamda_I * I - Sig_x * X * p.Pi - lamda_x * X,
       yi * Sum_f * p.Pi - lamda_I * I,
       f_f * P_0 / mu_f * n_r - K_fm / mu_f * (Tf - Tc),
       (1 - f_f) * P_0 / mu_m * n_r + (K_fm * (Tf - Tm) - K_mc * (Tm - Tc)) / mu_m,
       K_mc * (Tm - Tc) / mu_c - 2 * M_dot * cp_c * (Tc - T_in) / mu_c], rho)
  if num_drums = 8 ∨ num_drums = 2 ∨ num_drums = 1 then
    Except.ok (mkOut (Rho_d1 + alpha_f * (Tf - Tf0) + alpha_c * (Tc - Tc0) +
      alpha_m * (Tm - Tm0) - Sig_x * (X - p.Xe0) / Sum_f))
  else if num_drums = 4 then
    Except.ok (mkOut (Rho_d1 + alpha_f * (Tf - 900.42) + alpha_c * (Tc - 888.261) +
      alpha_m * (Tm - 898.261) - Sig_x * (X - p.Xe0) / Sum_f))
  else
    Except.error "Invalid number of drums specified."

/-! ## Controllers (controller.STCController, controller.PIDController) -/

/-- Embedding of numpy.sign restricted to real arguments. -/
def np_sign (x : ℝ) : ℝ := if 0 < x then 1 else if x < 0 then -1 else 0

/-- Denominator of the shared filtered-derivative primitive:
T + T_C unless that sum is zero, in which case T_C
(the conditional expression appearing in both update methods). -/
def filtDenom (T T_C : ℝ) : ℝ := if T + T_C ≠ 0 then T + T_C else T_C

/-- Saturation block shared by both update methods: clamp a raw command
to the actuator range. -/
def saturate (command max_val min_val : ℝ) : ℝ :=
  if command > max_val then max_val
  else if command < min_val then min_val
  else command

/-- Rate-limiting block shared by both update methods: clamp the saturated
command so it differs from the previous saturated command by at most r,
where r is max_rate times the elapsed time. -/
def rateLimit (command_sat command_sat_prev r : ℝ) : ℝ :=
  if command_sat > command_sat_prev + r then command_sat_prev + r
  else if command_sat < command_sat_prev - r then command_sat_prev - r
  else command_sat

/-- Constructor arguments of STCController other than u0. -/
structure STCParams where
  lambda_ : ℝ
  W : ℝ
  T_C : ℝ
  max_val : ℝ
  min_val : ℝ
  max_rate : ℝ

/-- Mutable instance fields of STCController. -/
structure STCState where
  u : ℝ
  err_prev : ℝ
  t_prev : ℝ
  deriv_prev : ℝ
  command_sat_prev : ℝ
  command_prev : ℝ

/-- Initial STCController state as set in STCController.__init__. -/
def STCState.init (u0 : ℝ) : STCState := ⟨u0, 0, 0, 0, u0, u0⟩

/-- Embedding of STCController.update: returns the updated instance state
paired with the returned command. -/
def stcUpdate (p : STCParams) (s : STCState) (t measurement setpoint : ℝ) :
    STCState × ℝ :=
  let err := setpoint - measurement
  let T := t - s.t_prev
  let denom := filtDenom T p.T_C
  let deriv_filt := (err - s.err_prev + p.T_C * s.deriv_prev) / denom
  let sv := err + deriv_filt
  let u1 := s.u + p.W * np_sign sv * T
  let command := p.lambda_ * Real.sqrt |sv| * np_sign sv + u1
  let command_sat := saturate command p.max_val p.min_val
  let command_sat2 := rateLimit command_sat s.command_sat_prev (p.max_rate * T)
  (⟨u1, err, t, deriv_filt, command_sat2, s.command_prev⟩, command_sat2)

/-- Constructor arguments of PIDController other than u0. -/
structure PIDParams where
  Kp : ℝ
  Ki : ℝ
  Kd : ℝ
  Kaw : ℝ
  T_C : ℝ
  max_val : ℝ
  min_val : ℝ
  max_rate : ℝ

/-- Mutable instance fields of PIDController. -/
structure PIDState where
  integral : ℝ
  err_prev : ℝ
  t_prev : ℝ
  deriv_prev : ℝ
  command_prev : ℝ
  command_sat_prev : ℝ

/-- Initial PIDController state as set in PIDController.__init__. -/
def PIDState.init (u0 : ℝ) : PIDState := ⟨u0, 0, 0, 0, u0, u0⟩

/-- Embedding of PIDController.update: returns the updated instance state
paired with the returned command. -/
def pidUpdate (p : PIDParams) (s : PIDState) (t measurement setpoint : ℝ) :
    PIDState × ℝ :=
  let err := setpoint - measurement
  let T_period := t - s.t_prev
  let integral1 := s.integral + p.Ki * err * T_period +
    p.Kaw * (s.command_sat_prev - s.command_prev) * T_period
  let denom := filtDenom T_period p.T_C
  let deriv_filt := (err - s.err_prev + p.T_C * s.deriv_prev) / denom
  let command := p.Kp * err + integral1 + p.Kd * deriv_filt
  let command_sat := saturate command p.max_val p.min_val
  let command_sat2 := rateLimit command_sat s.command_sat_prev (p.max_rate * T_period)
  (⟨integral1, err, t, deriv_filt, command, command_sat2⟩, command_sat2)

/-- Sequence of STCController.update calls: each call is a triple
(t, measurement, setpoint); returns the final state and the list of
returned commands in call order. -/
def stcRun (p : STCParams) : STCState → List (ℝ × ℝ × ℝ) → STCState × List ℝ
  | s, [] => (s, [])
  | s, (t, m, sp) :: rest =>
    let step := stcUpdate p s t m sp
    let tail := stcRun p step.1 rest
    (tail.1, step.2 :: tail.2)

/-- Sequence of PIDController.update calls, analogous to stcRun. -/
def pidRun (p : PIDParams) : PIDState → List (ℝ × ℝ × ℝ) → PIDState × List ℝ
  | s, [] => (s, [])
  | s, (t, m, sp) :: rest =>
    let step := pidUpdate p s t m sp
    let tail := pidRun p step.1 rest
    (tail.1, step.2 :: tail.2)

/-- Chronological-call predicate: the time of each call in the list is at
least the given lower bound and the call times are nondecreasing. -/
def timesMono : ℝ → List (ℝ × ℝ × ℝ) → Prop
  | _, [] => True
  | t0, (t, _, _) :: rest => t0 ≤ t ∧ timesMono t rest

/-! ## Simulation driver (run.main loop) -/

/-- Embedding of the simulation loop of run.main, generic in the derivative
function f and the controller update upd (the loop body is identical for
both controller types). simHist i returns (state_i, u_i, controllerState_i)
where time_i = i * dt, states advance by explicit Euler and the command for
step i+1 is computed from the freshly advanced power state_[i+1][0] and the
reference at index i+1, at time time_i. -/
def simHist {σ : Type} (f : ℝ → (Fin 12 → ℝ) → ℝ → (Fin 12 → ℝ) × ℝ)
    (upd : σ → ℝ → ℝ → ℝ → σ × ℝ) (dt : ℝ) (reference : ℕ → ℝ)
    (x0 : Fin 12 → ℝ) (u0 : ℝ) (c0 : σ) : ℕ → (Fin 12 → ℝ) × ℝ × σ
  | 0 => (x0, u0, c0)
  | i + 1 =>
    let prev := simHist f upd dt reference x0 u0 c0 i
    let dxr := f (i * dt) prev.1 prev.2.1
    let x1 : Fin 12 → ℝ := fun j => prev.1 j + dxr.1 j * dt
    let cu := upd prev.2.2 (i * dt) (x1 0) (reference (i + 1))
    (x1, cu.2, cu.1)

/-- Reactivity history of run.main: rho_history i is the reactivity reported
by the derivative function at (time_i, state_i, u_i); inside the loop this is
the value returned alongside the Euler step, and for the final index it is
the extra call made after the loop on the final state and command, which
advances nothing. -/
def simRho {σ : Type} (f : ℝ → (Fin 12 → ℝ) → ℝ → (Fin 12 → ℝ) × ℝ)
    (upd : σ → ℝ → ℝ → ℝ → σ × ℝ) (dt : ℝ) (reference : ℕ → ℝ)
    (x0 : Fin 12 → ℝ) (u0 : ℝ) (c0 : σ) (i : ℕ) : ℝ :=
  let h := simHist f upd dt reference x0 u0 c0 i
  (f (i * dt) h.1 h.2.1).2

/-! ## Shared helper lemmas -/

/-- The filtered-derivative denominator is nonzero whenever T_C is nonzero. -/
lemma filtDenom_ne_zero (T T_C : ℝ) (h : T_C ≠ 0) : filtDenom T T_C ≠ 0 := by
  unfold filtDenom
  split_ifs with h1
  · exact h1
  · exact h

/-- Saturation lands in the actuator range as soon as the range is nonempty. -/
lemma saturate_mem (c maxv minv : ℝ) (h : minv ≤ maxv) :
    minv ≤ saturate c maxv minv ∧ saturate c maxv minv ≤ maxv := by
  unfold saturate
  split_ifs with h1 h2 <;> constructor <;> linarith

/-- Rate limiting keeps a value that is in range in range, provided the
previous saturated command is in range and the rate budget is nonnegative. -/
lemma rateLimit_mem (cs prev r minv maxv : ℝ) (hr : 0 ≤ r)
    (hcs1 : minv ≤ cs) (hcs2 : cs ≤ maxv) (hp1 : minv ≤ prev) (hp2 : prev ≤ maxv) :
    minv ≤ rateLimit cs prev r ∧ rateLimit cs prev r ≤ maxv := by
  unfold rateLimit
  split_ifs with h1 h2 <;> constructor <;> linarith

/-- Rate limiting moves the output at most r away from the previous
saturated command when the rate budget r is nonnegative. -/
lemma rateLimit_abs_le (cs prev r : ℝ) (hr : 0 ≤ r) :
    |rateLimit cs prev r - prev| ≤ r := by
  unfold rateLimit
  split_ifs with h1 h2 <;> rw [abs_le] <;> constructor <;> linarith

/-- With a zero rate budget, rate limiting returns the previous saturated
command whatever the incoming value. -/
lemma rateLimit_zero (cs prev : ℝ) : rateLimit cs prev 0 = prev := by
  unfold rateLimit
  split_ifs with h1 h2 <;> linarith

/-- Saturation is the identity on commands already in range. -/
lemma saturate_of_mem (c maxv minv : ℝ) (h1 : c ≤ maxv) (h2 : minv ≤ c) :
    saturate c maxv minv = c := by
  unfold saturate
  split_ifs with ha hb
  · linarith
  · linarith
  · rfl

/-- Rate limiting is the identity on commands within the rate budget of the
previous saturated command. -/
lemma rateLimit_of_close (cs prev r : ℝ) (h1 : cs ≤ prev + r) (h2 : prev - r ≤ cs) :
    rateLimit cs prev r = cs := by
  unfold rateLimit
  split_ifs with ha hb
  · linarith
  · linarith
  · rfl

/-- Saturation followed by rate limiting lands in the actuator range when the
rate budget is nonnegative and the previous saturated command is in range. -/
lemma sat_rate_mem (c prev r minv maxv : ℝ) (hr : 0 ≤ r)
    (hp1 : minv ≤ prev) (hp2 : prev ≤ maxv) :
    minv ≤ rateLimit (saturate c maxv minv) prev r ∧
      rateLimit (saturate c maxv minv) prev r ≤ maxv := by
  obtain ⟨a, b⟩ := saturate_mem c maxv minv (le_trans hp1 hp2)
  exact rateLimit_mem _ _ _ _ _ hr a b hp1 hp2

/-- The updated STC state stores the returned command as the new previous
saturated command. -/
lemma stcUpdate_sat_prev (p : STCParams) (s : STCState) (t m sp : ℝ) :
    (stcUpdate p s t m sp).1.command_sat_prev = (stcUpdate p s t m sp).2 := rfl

/-- The updated STC state stores the call time as the new previous time. -/
lemma stcUpdate_t_prev (p : STCParams) (s : STCState) (t m sp : ℝ) :
    (stcUpdate p s t m sp).1.t_prev = t := rfl

/-- The updated PID state stores the returned command as the new previous
saturated command. -/
lemma pidUpdate_sat_prev (p : PIDParams) (s : PIDState) (t m sp : ℝ) :
    (pidUpdate p s t m sp).1.command_sat_prev = (pidUpdate p s t m sp).2 := rfl

/-- The updated PID state stores the call time as the new previous time. -/
lemma pidUpdate_t_prev (p : PIDParams) (s : PIDState) (t m sp : ℝ) :
    (pidUpdate p s t m sp).1.t_prev = t := rfl

/-- One STC update keeps the returned command in the actuator range. -/
lemma stcUpdate_range (p : STCParams) (s : STCState) (t m sp : ℝ)
    (hr : 0 ≤ p.max_rate) (ht : s.t_prev ≤ t)
    (h1 : p.min_val ≤ s.command_sat_prev) (h2 : s.command_sat_prev ≤ p.max_val) :
    p.min_val ≤ (stcUpdate p s t m sp).2 ∧ (stcUpdate p s t m sp).2 ≤ p.max_val :=
  sat_rate_mem _ _ _ _ _ (mul_nonneg hr (by linarith)) h1 h2

/-- One PID update keeps the returned command in the actuator range. -/
lemma pidUpdate_range (p : PIDParams) (s : PIDState) (t m sp : ℝ)
    (hr : 0 ≤ p.max_rate) (ht : s.t_prev ≤ t)
    (h1 : p.min_val ≤ s.command_sat_prev) (h2 : s.command_sat_prev ≤ p.max_val) :
    p.min_val ≤ (pidUpdate p s t m sp).2 ∧ (pidUpdate p s t m sp).2 ≤ p.max_val :=
  sat_rate_mem _ _ _ _ _ (mul_nonneg hr (by linarith)) h1 h2

/-- One STC update moves the returned command at most max_rate times the
elapsed time away from the previous saturated command. -/
lemma stcUpdate_rate (p : STCParams) (s : STCState) (t m sp : ℝ)
    (hr : 0 ≤ p.max_rate) (ht : s.t_prev ≤ t) :
    |(stcUpdate p s t m sp).2 - s.command_sat_prev| ≤ p.max_rate * (t - s.t_prev) :=
  rateLimit_abs_le _ _ _ (mul_nonneg hr (by linarith))

/-- One PID update moves the returned command at most max_rate times the
elapsed time away from the previous saturated command. -/
lemma pidUpdate_rate (p : PIDParams) (s : PIDState) (t m sp : ℝ)
    (hr : 0 ≤ p.max_rate) (ht : s.t_prev ≤ t) :
    |(pidUpdate p s t m sp).2 - s.command_sat_prev| ≤ p.max_rate * (t - s.t_prev) :=
  rateLimit_abs_le _ _ _ (mul_nonneg hr (by linarith))

/-- Parameter record with all fields zero, used to instantiate theorems. -/
def paramsZero : ReactorParams := ⟨0, 0, 0, 0, 0, some 0, some 0⟩

/-! ## Claims -/

/-- C1: get_drum_params returns the exact literal tuple
(Rho_d0, Reactivity_per_degree, u0, W) for each drum count in {8,4,2,1};
u0 and W are strictly increasing and Reactivity_per_degree strictly
decreasing as the drum count decreases; and every other input yields the
8-drum Rho_d0, Reactivity_per_degree and u0 with switching gain W = 0.04
instead of the 8-drum value 0.06. -/
theorem drum_params_table (n : ℤ) (h8 : n ≠ 8) (h4 : n ≠ 4) (h2 : n ≠ 2)
    (h1 : n ≠ 1) :
    get_drum_params 8 = (-0.033085599, 26.11e-5, 77.56, 0.06) ∧
    get_drum_params 4 = (-0.033085599 + 0.013980296, 16.11e-5, 108.5, 0.1) ∧
    get_drum_params 2 = (-0.033085599 + 0.0074, 7.33e-5, 165.5, 0.2) ∧
    get_drum_params 1 = (-0.033085599 + 0.0071 + 0.0082, 2.77e-5, 170, 0.49) ∧
    ((get_drum_params 8).2.2.1 < (get_drum_params 4).2.2.1 ∧
      (get_drum_params 4).2.2.1 < (get_drum_params 2).2.2.1 ∧
      (get_drum_params 2).2.2.1 < (get_drum_params 1).2.2.1) ∧
    ((get_drum_params 8).2.2.2 < (get_drum_params 4).2.2.2 ∧
      (get_drum_params 4).2.2.2 < (get_drum_params 2).2.2.2 ∧
      (get_drum_params 2).2.2.2 < (get_drum_params 1).2.2.2) ∧
    ((get_drum_params 4).2.1 < (get_drum_params 8).2.1 ∧
      (get_drum_params 2).2.1 < (get_drum_params 4).2.1 ∧
      (get_drum_params 1).2.1 < (get_drum_params 2).2.1) ∧
    get_drum_params n = (-0.033085599, 26.11e-5, 77.56, 0.04) := by
  refine ⟨?_, ?_, ?_, ?_, ?_, ?_, ?_, ?_⟩ <;>
    norm_num [get_drum_params, h8, h4, h2, h1]

/-- Witness for C1 at the out-of-table input 0. -/
theorem drum_params_table_witness :
    (0 : ℤ) ≠ 8 ∧ get_drum_params 0 = (-0.033085599, 26.11e-5, 77.56, 0.04) :=
  ⟨by decide,
    (drum_params_table 0 (by decide) (by decide) (by decide) (by decide)).2.2.2.2.2.2.2⟩

/-- C2: for every supported drum count, state vector and actuator position,
the reactivity returned by reactor_dae equals
Rho_d0 + u * Reactivity_per_degree + alpha_f (Tf - TfAnchor)
+ alpha_m (Tm - TmAnchor) + alpha_c (Tc - TcAnchor) - (Sig_x / Sum_f)(X - Xe0),
where for drum counts 8, 2 and 1 the anchors are the configured Tf0 and Tm0
and the derived Tc0, and for drum count 4 the hard-coded constants
900.42 (fuel), 898.261 (moderator) and 888.261 (coolant) replace them,
matching the order in which the source lists its temperature terms. -/
theorem reactor_dae_reactivity (nd : ℤ) (p : ReactorParams) (t : ℝ)
    (x : Fin 12 → ℝ) (u : ℝ) (h : nd = 8 ∨ nd = 4 ∨ nd = 2 ∨ nd = 1) :
    (reactor_dae nd p t x u).toOption.map Prod.snd = some
      (p.Rho_d0 + u * p.Reactivity_per_degree +
        alpha_f * (x 9 - (if nd = 4 then 900.42 else p.Tf0opt.getD 1105)) +
        alpha_m * (x 10 - (if nd = 4 then 898.261 else p.Tm0opt.getD 1087)) +
        alpha_c * (x 11 - (if nd = 4 then 888.261 else Tc0)) -
        (Sig_x / Sum_f) * (x 7 - p.Xe0)) := by
  rcases h with h | h | h | h <;> subst h <;>
    simp [reactor_dae, Except.toOption] <;> ring

/-- Witness for C2 at drum count 8 with all-zero parameters and state. -/
theorem reactor_dae_reactivity_witness :
    (reactor_dae 8 paramsZero 0 (fun _ => 0) 0).toOption.map Prod.snd = some 0 := by
  have h := reactor_dae_reactivity 8 paramsZero 0 (fun _ => 0) 0 (Or.inl rfl)
  rw [h]
  norm_num [paramsZero, alpha_f, alpha_m, alpha_c]

/-- C3: for every drum count outside {1,2,4,8}, reactor_dae fails with the
ValueError of the source and produces neither a state-derivative vector
nor a reactivity value. -/
theorem reactor_dae_invalid_drums (nd : ℤ) (p : ReactorParams) (t : ℝ)
    (x : Fin 12 → ℝ) (u : ℝ) (h8 : nd ≠ 8) (h4 : nd ≠ 4) (h2 : nd ≠ 2)
    (h1 : nd ≠ 1) :
    reactor_dae nd p t x u = Except.error "Invalid number of drums specified." := by
  simp [reactor_dae, h8, h4, h2, h1]

/-- Witness for C3 at drum count 3. -/
theorem reactor_dae_invalid_drums_witness :
    reactor_dae 3 paramsZero 0 (fun _ => 0) 0 =
      Except.error "Invalid number of drums specified." :=
  reactor_dae_invalid_drums 3 paramsZero 0 (fun _ => 0) 0
    (by decide) (by decide) (by decide) (by decide)

/-- C4 counterexample: the claim asserts the filtered-derivative computation
never divides by zero whatever the values of T and T_C, but at T = 0 and
T_C = 0 the guarded denominator itself is zero. -/
theorem filtered_derivative_cex :
    filtDenom 0 0 = 0 ∧ ¬ ∀ T T_C : ℝ, filtDenom T T_C ≠ 0 := by
  have h0 : filtDenom 0 0 = 0 := by norm_num [filtDenom]
  exact ⟨h0, fun h => h 0 0 h0⟩

/-- C4 amended: in both controller variants the stored filtered derivative
equals (err - err_prev + T_C * deriv_prev) / denom with
denom = T + T_C unless that sum is zero, in which case denom = T_C; and the
denominator is nonzero provided the filter time constant T_C is nonzero
(rather than for all values of T and T_C as claimed). -/
theorem filtered_derivative_formula (pS : STCParams) (sS : STCState)
    (pP : PIDParams) (sP : PIDState) (t m sp : ℝ)
    (hS : pS.T_C ≠ 0) (hP : pP.T_C ≠ 0) :
    (stcUpdate pS sS t m sp).1.deriv_prev =
      ((sp - m) - sS.err_prev + pS.T_C * sS.deriv_prev) /
        filtDenom (t - sS.t_prev) pS.T_C ∧
    filtDenom (t - sS.t_prev) pS.T_C ≠ 0 ∧
    (pidUpdate pP sP t m sp).1.deriv_prev =
      ((sp - m) - sP.err_prev + pP.T_C * sP.deriv_prev) /
        filtDenom (t - sP.t_prev) pP.T_C ∧
    filtDenom (t - sP.t_prev) pP.T_C ≠ 0 :=
  ⟨rfl, filtDenom_ne_zero _ _ hS, rfl, filtDenom_ne_zero _ _ hP⟩

/-- Witness for the amended C4 with the run.py filter constants: elapsed
time 2, previous error and derivative 0, error 2, so the filtered
derivative is 2 / (2 + T_C). -/
theorem filtered_derivative_formula_witness :
    (stcUpdate ⟨0, 0, 1, 180, 0, 0.5⟩ (STCState.init 5) 2 1 3).1.deriv_prev = 2 / 3 ∧
    (pidUpdate ⟨1, 1, 1, 1, 1, 180, 0, 0.5⟩ (PIDState.init 5) 2 1 3).1.deriv_prev = 2 / 3 := by
  obtain ⟨h1, -, h2, -⟩ :=
    filtered_derivative_formula ⟨0, 0, 1, 180, 0, 0.5⟩ (STCState.init 5)
      ⟨1, 1, 1, 1, 1, 180, 0, 0.5⟩ (PIDState.init 5) 2 1 3
      (by norm_num) (by norm_num)
  constructor
  · rw [h1]
    norm_num [STCState.init, filtDenom]
  · rw [h2]
    norm_num [PIDState.init, filtDenom]

/-- C10: an update call whose time argument equals the stored previous time
returns exactly the previous saturated command for both controller variants,
whatever the measurement and setpoint, and in particular the very first call
made at time 0 returns u0, because the rate limiter clamps any change to
max_rate times an elapsed time of zero. -/
theorem zero_elapsed_returns_prev (pS : STCParams) (sS : STCState)
    (pP : PIDParams) (sP : PIDState) (u0 m1 sp1 m2 sp2 m3 sp3 m4 sp4 : ℝ) :
    (stcUpdate pS sS sS.t_prev m1 sp1).2 = sS.command_sat_prev ∧
    (pidUpdate pP sP sP.t_prev m2 sp2).2 = sP.command_sat_prev ∧
    (stcUpdate pS (STCState.init u0) 0 m3 sp3).2 = u0 ∧
    (pidUpdate pP (PIDState.init u0) 0 m4 sp4).2 = u0 := by
  have hstc : ∀ s : STCState, ∀ m sp : ℝ,
      (stcUpdate pS s s.t_prev m sp).2 = s.command_sat_prev := by
    intro s m sp
    simp [stcUpdate, rateLimit_zero]
  have hpid : ∀ s : PIDState, ∀ m sp : ℝ,
      (pidUpdate pP s s.t_prev m sp).2 = s.command_sat_prev := by
    intro s m sp
    simp [pidUpdate, rateLimit_zero]
  exact ⟨hstc sS m1 sp1, hpid sP m2 sp2,
    hstc (STCState.init u0) m3 sp3, hpid (PIDState.init u0) m4 sp4⟩

/-- Every command of a chronological STC call sequence started from a state
whose previous saturated command is in range stays in range. -/
lemma stcRun_range (p : STCParams) (calls : List (ℝ × ℝ × ℝ)) :
    ∀ s : STCState, 0 ≤ p.max_rate → p.min_val ≤ s.command_sat_prev →
      s.command_sat_prev ≤ p.max_val → timesMono s.t_prev calls →
      ∀ c ∈ (stcRun p s calls).2, p.min_val ≤ c ∧ c ≤ p.max_val := by
  induction calls with
  | nil =>
    intro s _ _ _ _ c hc
    simp [stcRun] at hc
  | cons head rest ih =>
    obtain ⟨t, m, sp⟩ := head
    intro s hr h1 h2 hmono c hc
    obtain ⟨ht, hmono'⟩ := hmono
    simp only [stcRun, List.mem_cons] at hc
    rcases hc with hc | hc
    · subst hc
      exact stcUpdate_range p s t m sp hr ht h1 h2
    · have hstep := stcUpdate_range p s t m sp hr ht h1 h2
      refine ih (stcUpdate p s t m sp).1 hr ?_ ?_ ?_ c hc
      · rw [stcUpdate_sat_prev]
        exact hstep.1
      · rw [stcUpdate_sat_prev]
        exact hstep.2
      · rw [stcUpdate_t_prev]
        exact hmono'

/-- Every command of a chronological PID call sequence started from a state
whose previous saturated command is in range stays in range. -/
lemma pidRun_range (p : PIDParams) (calls : List (ℝ × ℝ × ℝ)) :
    ∀ s : PIDState, 0 ≤ p.max_rate → p.min_val ≤ s.command_sat_prev →
      s.command_sat_prev ≤ p.max_val → timesMono s.t_prev calls →
      ∀ c ∈ (pidRun p s calls).2, p.min_val ≤ c ∧ c ≤ p.max_val := by
  induction calls with
  | nil =>
    intro s _ _ _ _ c hc
    simp [pidRun] at hc
  | cons head rest ih =>
    obtain ⟨t, m, sp⟩ := head
    intro s hr h1 h2 hmono c hc
    obtain ⟨ht, hmono'⟩ := hmono
    simp only [pidRun, List.mem_cons] at hc
    rcases hc with hc | hc
    · subst hc
      exact pidUpdate_range p s t m sp hr ht h1 h2
    · have hstep := pidUpdate_range p s t m sp hr ht h1 h2
      refine ih (pidUpdate p s t m sp).1 hr ?_ ?_ ?_ c hc
      · rw [pidUpdate_sat_prev]
        exact hstep.1
      · rw [pidUpdate_sat_prev]
        exact hstep.2
      · rw [pidUpdate_t_prev]
        exact hmono'

/-- STC parameter record with zero sliding gains, unit filter constant,
actuator range [0, 10] and rate limit 1, used for concrete evaluations. -/
def stcGain0Params : STCParams := ⟨0, 0, 1, 10, 0, 1⟩

/-- C5 counterexample: with arbitrary call times the range invariant fails.
A single call made at time -100 (before the initial previous time 0) on a
controller with range [0, 10], u0 = 5 and max_rate = 1 returns -95, because
the rate limiter adds max_rate times the negative elapsed time. -/
theorem command_range_cex :
    ¬ ∀ c ∈ (stcRun stcGain0Params (STCState.init 5) [(-100, 0, 0)]).2,
        stcGain0Params.min_val ≤ c ∧ c ≤ stcGain0Params.max_val := by
  intro h
  have hrun : (stcRun stcGain0Params (STCState.init 5) [(-100, 0, 0)]).2 = [-95] := by
    norm_num [stcRun, stcUpdate, STCState.init, stcGain0Params, filtDenom,
      np_sign, saturate, rateLimit]
  have hmem : (-95 : ℝ) ∈ (stcRun stcGain0Params (STCState.init 5) [(-100, 0, 0)]).2 := by
    rw [hrun]
    exact List.mem_singleton.2 rfl
  have := (h (-95) hmem).1
  norm_num [stcGain0Params] at this

/-- C5 amended: for every sequence of update calls on either controller
variant with nondecreasing call times starting no earlier than the initial
previous time 0, a nonnegative max_rate and u0 inside [min_val, max_val],
every returned command lies in the closed interval [min_val, max_val]. -/
theorem command_range_invariant (pS : STCParams) (u0S : ℝ)
    (callsS : List (ℝ × ℝ × ℝ)) (pP : PIDParams) (u0P : ℝ)
    (callsP : List (ℝ × ℝ × ℝ))
    (hS1 : pS.min_val ≤ u0S) (hS2 : u0S ≤ pS.max_val) (hS3 : 0 ≤ pS.max_rate)
    (hS4 : timesMono 0 callsS)
    (hP1 : pP.min_val ≤ u0P) (hP2 : u0P ≤ pP.max_val) (hP3 : 0 ≤ pP.max_rate)
    (hP4 : timesMono 0 callsP) :
    (∀ c ∈ (stcRun pS (STCState.init u0S) callsS).2,
        pS.min_val ≤ c ∧ c ≤ pS.max_val) ∧
    (∀ c ∈ (pidRun pP (PIDState.init u0P) callsP).2,
        pP.min_val ≤ c ∧ c ≤ pP.max_val) :=
  ⟨stcRun_range pS callsS (STCState.init u0S) hS3 hS1 hS2 hS4,
    pidRun_range pP callsP (PIDState.init u0P) hP3 hP1 hP2 hP4⟩

/-- Witness for the amended C5 with the run.py controller constants and a
two-call chronological sequence. -/
theorem command_range_invariant_witness :
    (∀ c ∈ (stcRun ⟨0.001, 0.06, 0.5, 180, 0, 0.5⟩ (STCState.init 77.56)
        [(1, 1, 0.9), (2, 0.8, 0.7)]).2,
        (⟨0.001, 0.06, 0.5, 180, 0, 0.5⟩ : STCParams).min_val ≤ c ∧
          c ≤ (⟨0.001, 0.06, 0.5, 180, 0, 0.5⟩ : STCParams).max_val) ∧
    (∀ c ∈ (pidRun ⟨2, 5, 0.001, 0.3, 0.2, 180, 0, 0.5⟩ (PIDState.init 170)
        [(1, 1, 0.9), (2, 0.8, 0.7)]).2,
        (⟨2, 5, 0.001, 0.3, 0.2, 180, 0, 0.5⟩ : PIDParams).min_val ≤ c ∧
          c ≤ (⟨2, 5, 0.001, 0.3, 0.2, 180, 0, 0.5⟩ : PIDParams).max_val) :=
  command_range_invariant ⟨0.001, 0.06, 0.5, 180, 0, 0.5⟩ 77.56
    [(1, 1, 0.9), (2, 0.8, 0.7)] ⟨2, 5, 0.001, 0.3, 0.2, 180, 0, 0.5⟩ 170
    [(1, 1, 0.9), (2, 0.8, 0.7)]
    (by norm_num) (by norm_num) (by norm_num) (by norm_num [timesMono])
    (by norm_num) (by norm_num) (by norm_num) (by norm_num [timesMono])

/-- STC parameter record with zero sliding gains and a negative rate limit,
used to refute the unrestricted rate-limit claim. -/
def stcNegRateParams : STCParams := ⟨0, 0, 1, 10, 0, -1⟩

/-- C6 counterexample: with a negative max_rate the bound fails. Two calls
with elapsed time 1 > 0 on a controller with max_rate = -1 and u0 = 5
return 4 and then 3, and the difference 1 is not bounded by
max_rate times the elapsed time, which is -1. -/
theorem rate_limit_cex :
    (stcRun stcNegRateParams (STCState.init 5) [(1, 0, 0), (2, 0, 0)]).2 = [4, 3] ∧
    ¬ (|(3 : ℝ) - 4| ≤ stcNegRateParams.max_rate * (2 - 1)) := by
  constructor
  · norm_num [stcRun, stcUpdate, STCState.init, stcNegRateParams, filtDenom,
      np_sign, saturate, rateLimit]
  · norm_num [stcNegRateParams]

/-- C6 amended: for two consecutive commands of the same controller instance
of either variant, with elapsed time T > 0 between the calls and a
nonnegative max_rate, the commands differ by at most max_rate * T, and the
rate-limited value is stored as the new previous saturated command. -/
theorem rate_limit_consecutive (pS : STCParams) (sS : STCState)
    (t1 m1 sp1 t2 m2 sp2 : ℝ) (pP : PIDParams) (sP : PIDState)
    (t3 m3 sp3 t4 m4 sp4 : ℝ)
    (hS : 0 ≤ pS.max_rate) (htS : t1 < t2)
    (hP : 0 ≤ pP.max_rate) (htP : t3 < t4) :
    |(stcUpdate pS (stcUpdate pS sS t1 m1 sp1).1 t2 m2 sp2).2 -
        (stcUpdate pS sS t1 m1 sp1).2| ≤ pS.max_rate * (t2 - t1) ∧
    (stcUpdate pS sS t1 m1 sp1).1.command_sat_prev = (stcUpdate pS sS t1 m1 sp1).2 ∧
    |(pidUpdate pP (pidUpdate pP sP t3 m3 sp3).1 t4 m4 sp4).2 -
        (pidUpdate pP sP t3 m3 sp3).2| ≤ pP.max_rate * (t4 - t3) ∧
    (pidUpdate pP sP t3 m3 sp3).1.command_sat_prev = (pidUpdate pP sP t3 m3 sp3).2 := by
  refine ⟨?_, rfl, ?_, rfl⟩
  · have h := stcUpdate_rate pS (stcUpdate pS sS t1 m1 sp1).1 t2 m2 sp2 hS
      (by rw [stcUpdate_t_prev]; linarith)
    rwa [stcUpdate_sat_prev, stcUpdate_t_prev] at h
  · have h := pidUpdate_rate pP (pidUpdate pP sP t3 m3 sp3).1 t4 m4 sp4 hP
      (by rw [pidUpdate_t_prev]; linarith)
    rwa [pidUpdate_sat_prev, pidUpdate_t_prev] at h

/-- Witness for the amended C6 with the run.py controller constants and two
calls one second apart. -/
theorem rate_limit_consecutive_witness :
    |(stcUpdate ⟨0.001, 0.06, 0.5, 180, 0, 0.5⟩
        (stcUpdate ⟨0.001, 0.06, 0.5, 180, 0, 0.5⟩ (STCState.init 77.56) 1 1 0.9).1
        2 0.8 0.7).2 -
      (stcUpdate ⟨0.001, 0.06, 0.5, 180, 0, 0.5⟩ (STCState.init 77.56) 1 1 0.9).2| ≤
      (⟨0.001, 0.06, 0.5, 180, 0, 0.5⟩ : STCParams).max_rate * (2 - 1) ∧
    (stcUpdate ⟨0.001, 0.06, 0.5, 180, 0, 0.5⟩ (STCState.init 77.56) 1 1 0.9).1.command_sat_prev =
      (stcUpdate ⟨0.001, 0.06, 0.5, 180, 0, 0.5⟩ (STCState.init 77.56) 1 1 0.9).2 ∧
    |(pidUpdate ⟨2, 5, 0.001, 0.3, 0.2, 180, 0, 0.5⟩
        (pidUpdate ⟨2, 5, 0.001, 0.3, 0.2, 180, 0, 0.5⟩ (PIDState.init 170) 1 1 0.9).1
        2 0.8 0.7).2 -
      (pidUpdate ⟨2, 5, 0.001, 0.3, 0.2, 180, 0, 0.5⟩ (PIDState.init 170) 1 1 0.9).2| ≤
      (⟨2, 5, 0.001, 0.3, 0.2, 180, 0, 0.5⟩ : PIDParams).max_rate * (2 - 1) ∧
    (pidUpdate ⟨2, 5, 0.001, 0.3, 0.2, 180, 0, 0.5⟩ (PIDState.init 170) 1 1 0.9).1.command_sat_prev =
      (pidUpdate ⟨2, 5, 0.001, 0.3, 0.2, 180, 0, 0.5⟩ (PIDState.init 170) 1 1 0.9).2 :=
  rate_limit_consecutive ⟨0.001, 0.06, 0.5, 180, 0, 0.5⟩ (STCState.init 77.56)
    1 1 0.9 2 0.8 0.7 ⟨2, 5, 0.001, 0.3, 0.2, 180, 0, 0.5⟩ (PIDState.init 170)
    1 1 0.9 2 0.8 0.7 (by norm_num) (by norm_num) (by norm_num) (by norm_num)

/-- One PID update at zero tracking error from an unsaturated steady state:
the integral, raw command and saturated command all stay at C and the
returned command is C. -/
lemma pidUpdate_zero_err (p : PIDParams) (s : PIDState) (t C m : ℝ)
    (h1 : s.integral = C) (h2 : s.err_prev = 0) (h3 : s.deriv_prev = 0)
    (h4 : s.command_prev = C) (h5 : s.command_sat_prev = C)
    (hlo : p.min_val ≤ C) (hhi : C ≤ p.max_val) (hr : 0 ≤ p.max_rate)
    (ht : s.t_prev ≤ t) :
    pidUpdate p s t m m = (⟨C, 0, t, 0, C, C⟩, C) := by
  have hT : 0 ≤ p.max_rate * (t - s.t_prev) := mul_nonneg hr (by linarith)
  unfold pidUpdate
  simp only [h1, h2, h3, h4, h5, sub_self, mul_zero, zero_mul, add_zero,
    zero_add, zero_div, sub_zero]
  rw [saturate_of_mem C p.max_val p.min_val hhi hlo,
    rateLimit_of_close C C _ (by linarith) (by linarith)]

/-- A chronological PID call sequence with zero tracking error keeps the
whole steady state at C and returns C at every call. -/
lemma pidRun_const (p : PIDParams) (calls : List (ℝ × ℝ × ℝ)) (C : ℝ)
    (hlo : p.min_val ≤ C) (hhi : C ≤ p.max_val) (hr : 0 ≤ p.max_rate) :
    ∀ s : PIDState, s.integral = C → s.err_prev = 0 → s.deriv_prev = 0 →
      s.command_prev = C → s.command_sat_prev = C →
      (∀ c ∈ calls, c.2.1 = c.2.2) → timesMono s.t_prev calls →
      (pidRun p s calls).1.integral = C ∧ ∀ u ∈ (pidRun p s calls).2, u = C := by
  induction calls with
  | nil =>
    intro s h1 _ _ _ _ _ _
    refine ⟨h1, ?_⟩
    intro u hu
    simp [pidRun] at hu
  | cons head rest ih =>
    obtain ⟨t, m, sp⟩ := head
    intro s h1 h2 h3 h4 h5 hms hmono
    obtain ⟨ht, hmono'⟩ := hmono
    have hmsp : m = sp := hms (t, m, sp) (List.mem_cons_self _ _)
    subst hmsp
    have hstep := pidUpdate_zero_err p s t C m h1 h2 h3 h4 h5 hlo hhi hr ht
    have htail := ih (pidUpdate p s t m m).1 (by rw [hstep]) (by rw [hstep])
      (by rw [hstep]) (by rw [hstep]) (by rw [hstep])
      (fun c hc => hms c (List.mem_cons_of_mem _ hc)) (by rw [hstep]; exact hmono')
    constructor
    · simpa only [pidRun] using htail.1
    · intro u hu
      simp only [pidRun, List.mem_cons] at hu
      rcases hu with hu | hu
      · rw [hu, hstep]
      · exact htail.2 u hu

/-- C7: for every chronological sequence of PID update calls in which the
measurement equals the setpoint at every call, with u0 inside the actuator
range and a nonnegative max_rate (so that neither saturation nor rate
limiting is ever active and the stored previous raw and previous saturated
commands coincide), the integral accumulator keeps its initial value u0 and
every returned command equals the previously returned command, namely u0. -/
theorem pid_zero_error_invariant (p : PIDParams) (u0 : ℝ)
    (calls : List (ℝ × ℝ × ℝ))
    (hms : ∀ c ∈ calls, c.2.1 = c.2.2) (hlo : p.min_val ≤ u0)
    (hhi : u0 ≤ p.max_val) (hr : 0 ≤ p.max_rate) (hmono : timesMono 0 calls) :
    (pidRun p (PIDState.init u0) calls).1.integral = u0 ∧
    ∀ u ∈ (pidRun p (PIDState.init u0) calls).2, u = u0 :=
  pidRun_const p calls u0 hlo hhi hr (PIDState.init u0) rfl rfl rfl rfl rfl
    hms hmono

/-- Witness for C7: run.py PID constants, u0 = 170, two calls tracking a
constant setpoint 0.9 exactly. -/
theorem pid_zero_error_invariant_witness :
    (pidRun ⟨2, 5, 0.001, 0.3, 0.2, 180, 0, 0.5⟩ (PIDState.init 170)
        [(1, 0.9, 0.9), (2, 0.9, 0.9)]).1.integral = 170 ∧
    ∀ u ∈ (pidRun ⟨2, 5, 0.001, 0.3, 0.2, 180, 0, 0.5⟩ (PIDState.init 170)
        [(1, 0.9, 0.9), (2, 0.9, 0.9)]).2, u = 170 :=
  pid_zero_error_invariant ⟨2, 5, 0.001, 0.3, 0.2, 180, 0, 0.5⟩ 170
    [(1, 0.9, 0.9), (2, 0.9, 0.9)] (by norm_num) (by norm_num) (by norm_num)
    (by norm_num) (by norm_num [timesMono])

/-- C9 counterexample: with W = 0 and lambda = 0 but a call made at time -1,
before the initial previous time 0, the command does not stay at u0 = 5:
the rate limiter subtracts max_rate and the call returns 4. -/
theorem stc_zero_gains_cex :
    stcGain0Params.lambda_ = 0 ∧ stcGain0Params.W = 0 ∧
    (stcUpdate stcGain0Params (STCState.init 5) (-1) 0 0).2 = 4 ∧ (4 : ℝ) ≠ 5 := by
  refine ⟨rfl, rfl, ?_, by norm_num⟩
  norm_num [stcUpdate, STCState.init, stcGain0Params, filtDenom, np_sign,
    saturate, rateLimit]

/-- One STC update with zero gains from a state whose accumulator and
previous saturated command are u0 keeps both at u0 and returns u0. -/
lemma stcUpdate_zero_gains (p : STCParams) (s : STCState) (t m sp u0 : ℝ)
    (hl : p.lambda_ = 0) (hW : p.W = 0) (hu : s.u = u0)
    (hcs : s.command_sat_prev = u0) (hlo : p.min_val ≤ u0) (hhi : u0 ≤ p.max_val)
    (hr : 0 ≤ p.max_rate) (ht : s.t_prev ≤ t) :
    (stcUpdate p s t m sp).1.u = u0 ∧
    (stcUpdate p s t m sp).1.command_sat_prev = u0 ∧
    (stcUpdate p s t m sp).1.t_prev = t ∧
    (stcUpdate p s t m sp).2 = u0 := by
  have hT : 0 ≤ p.max_rate * (t - s.t_prev) := mul_nonneg hr (by linarith)
  unfold stcUpdate
  simp only [hl, hW, hu, hcs, zero_mul, add_zero, zero_add]
  rw [saturate_of_mem u0 p.max_val p.min_val hhi hlo,
    rateLimit_of_close u0 u0 _ (by linarith) (by linarith)]
  simp

/-- A chronological STC call sequence with zero gains keeps the accumulator
and the previous saturated command at u0 and returns u0 at every call. -/
lemma stcRun_zero_gains (p : STCParams) (calls : List (ℝ × ℝ × ℝ)) (u0 : ℝ)
    (hl : p.lambda_ = 0) (hW : p.W = 0) (hlo : p.min_val ≤ u0)
    (hhi : u0 ≤ p.max_val) (hr : 0 ≤ p.max_rate) :
    ∀ s : STCState, s.u = u0 → s.command_sat_prev = u0 →
      timesMono s.t_prev calls →
      (stcRun p s calls).1.u = u0 ∧ ∀ c ∈ (stcRun p s calls).2, c = u0 := by
  induction calls with
  | nil =>
    intro s h1 _ _
    refine ⟨h1, ?_⟩
    intro c hc
    simp [stcRun] at hc
  | cons head rest ih =>
    obtain ⟨t, m, sp⟩ := head
    intro s h1 h2 hmono
    obtain ⟨ht, hmono'⟩ := hmono
    obtain ⟨e1, e2, e3, e4⟩ := stcUpdate_zero_gains p s t m sp u0 hl hW h1 h2
      hlo hhi hr ht
    have htail := ih (stcUpdate p s t m sp).1 e1 e2 (by rw [e3]; exact hmono')
    constructor
    · simpa only [stcRun] using htail.1
    · intro c hc
      simp only [stcRun, List.mem_cons] at hc
      rcases hc with hc | hc
      · rw [hc, e4]
      · exact htail.2 c hc

/-- C9 amended: a Supertwisting controller constructed with W = 0 and
lambda = 0, u0 inside the actuator range and a nonnegative max_rate returns
exactly u0 at every call of every chronological call sequence, for all
measurements and setpoints, and the switching accumulator stays at u0. -/
theorem stc_zero_gains_constant (p : STCParams) (u0 : ℝ)
    (calls : List (ℝ × ℝ × ℝ)) (hl : p.lambda_ = 0) (hW : p.W = 0)
    (hlo : p.min_val ≤ u0) (hhi : u0 ≤ p.max_val) (hr : 0 ≤ p.max_rate)
    (hmono : timesMono 0 calls) :
    (stcRun p (STCState.init u0) calls).1.u = u0 ∧
    ∀ c ∈ (stcRun p (STCState.init u0) calls).2, c = u0 :=
  stcRun_zero_gains p calls u0 hl hW hlo hhi hr (STCState.init u0) rfl rfl hmono

/-- Witness for the amended C9: the run.py STC configuration with both gains
zeroed, u0 = 77.56 and two calls with arbitrary distinct measurements. -/
theorem stc_zero_gains_constant_witness :
    (stcRun ⟨0, 0, 0.5, 180, 0, 0.5⟩ (STCState.init 77.56)
        [(1, 5, 3), (2, 7, 1)]).1.u = 77.56 ∧
    ∀ c ∈ (stcRun ⟨0, 0, 0.5, 180, 0, 0.5⟩ (STCState.init 77.56)
        [(1, 5, 3), (2, 7, 1)]).2, c = 77.56 :=
  stc_zero_gains_constant ⟨0, 0, 0.5, 180, 0, 0.5⟩ 77.56 [(1, 5, 3), (2, 7, 1)]
    rfl rfl (by norm_num) (by norm_num) (by norm_num) (by norm_num [timesMono])

/-- C8: the simulation loop of run.main first evaluates the derivative
function at (t_i, state_i, u_i) to obtain the step derivative and the
reactivity rho_i, then advances the state by one explicit Euler step, then
obtains u_[i+1] from the controller called at time t_i on the freshly
advanced power state_[i+1][0] and the reference at index i+1; the reactivity
at any index, including the final one computed after the loop, is evaluated
at (t_i, state_i, u_i) without advancing the state or the controller, so
each command is applied to the integration step after the one it was
computed from. -/
theorem sim_loop_structure {σ : Type} (f : ℝ → (Fin 12 → ℝ) → ℝ → (Fin 12 → ℝ) × ℝ)
    (upd : σ → ℝ → ℝ → ℝ → σ × ℝ) (dt : ℝ) (reference : ℕ → ℝ)
    (x0 : Fin 12 → ℝ) (u0 : ℝ) (c0 : σ) (i : ℕ) :
    simHist f upd dt reference x0 u0 c0 0 = (x0, u0, c0) ∧
    (simHist f upd dt reference x0 u0 c0 (i + 1)).1 =
      (fun j => (simHist f upd dt reference x0 u0 c0 i).1 j +
        (f (i * dt) (simHist f upd dt reference x0 u0 c0 i).1
          (simHist f upd dt reference x0 u0 c0 i).2.1).1 j * dt) ∧
    (simHist f upd dt reference x0 u0 c0 (i + 1)).2.1 =
      (upd (simHist f upd dt reference x0 u0 c0 i).2.2 (i * dt)
        ((simHist f upd dt reference x0 u0 c0 (i + 1)).1 0) (reference (i + 1))).2 ∧
    (simHist f upd dt reference x0 u0 c0 (i + 1)).2.2 =
      (upd (simHist f upd dt reference x0 u0 c0 i).2.2 (i * dt)
        ((simHist f upd dt reference x0 u0 c0 (i + 1)).1 0) (reference (i + 1))).1 ∧
    simRho f upd dt reference x0 u0 c0 i =
      (f (i * dt) (simHist f upd dt reference x0 u0 c0 i).1
        (simHist f upd dt reference x0 u0 c0 i).2.1).2 :=
  ⟨rfl, rfl, rfl, rfl, rfl⟩

end NPIC
